import Mathlib

/-!
Shallow embedding of `bin/match_variants.py` (variant matching for polygenic
score calculation). Data frames are modelled as lists of records; the polars
operations used by the script (inner joins, column adds, filters, pivots)
are translated operation by operation.
-/

/-! ## Allele complement (`read_target`)

The script complements alleles with a chain of eight `str.replace_all`
calls: A→V, T→X, C→Y, G→Z, then V→T, X→A, Y→G, Z→C.  Each
`replace_all` with single-character patterns is a character-wise map.
-/

/-- One single-character `str.replace_all` step, at one character. -/
def replaceAllC (a b c : Char) : Char := if c = a then b else c

/-- One single-character `str.replace_all` step over a string (as a char list). -/
def replaceAll (a b : Char) (s : List Char) : List Char := s.map (replaceAllC a b)

/-- The full eight-step substitution chain from `read_target`, on char lists. -/
def flipChars (s : List Char) : List Char :=
  replaceAll 'Z' 'C' (replaceAll 'Y' 'G' (replaceAll 'X' 'A' (replaceAll 'V' 'T'
    (replaceAll 'G' 'Z' (replaceAll 'C' 'Y' (replaceAll 'T' 'X' (replaceAll 'A' 'V' s)))))))

/-- The allele complement used by `read_target`, on strings. -/
def flipAlleles (s : String) : String := String.mk (flipChars s.data)

/-- The eight-step chain applied pointwise to one character. -/
def flipPoint (c : Char) : Char :=
  replaceAllC 'Z' 'C' (replaceAllC 'Y' 'G' (replaceAllC 'X' 'A' (replaceAllC 'V' 'T'
    (replaceAllC 'G' 'Z' (replaceAllC 'C' 'Y' (replaceAllC 'T' 'X' (replaceAllC 'A' 'V' c)))))))

/-! ## Data model -/

/-- A row of the target variant table as read from a `.bim` file
(columns `#CHROM`, `ID`, `CM`, `POS`, `REF`, `ALT`), before `read_target`
adds the flipped-allele columns. -/
structure RawTargetRow where
  chrom : String
  ID : String
  cm : Int
  pos : Nat
  REF : String
  ALT : String
deriving DecidableEq, Repr

/-- A target variant after `read_target`: the raw columns plus the
`REF_FLIP` and `ALT_FLIP` columns.  (The `Categorical` casts in the source
only intern strings and change no values.) -/
structure TargetVariant where
  chrom : String
  ID : String
  cm : Int
  pos : Nat
  REF : String
  ALT : String
  REF_FLIP : String
  ALT_FLIP : String
deriving DecidableEq, Repr

/-- `read_target`: annotate each raw row with its flipped alleles. -/
def read_target (rows : List RawTargetRow) : List TargetVariant :=
  rows.map (fun r =>
    { chrom := r.chrom, ID := r.ID, cm := r.cm, pos := r.pos, REF := r.REF, ALT := r.ALT,
      REF_FLIP := flipAlleles r.REF, ALT_FLIP := flipAlleles r.ALT })

/-- A row of the combined scorefile (`read_scorefile`).  Effect weights are
carried through the pipeline unchanged and never used arithmetically, so
they are modelled as rationals. -/
structure ScoreEntry where
  chr_name : String
  chr_position : Nat
  effect_allele : String
  other_allele : String
  effect_weight : Rat
  effect_type : String
  accession : String
deriving DecidableEq, Repr

/-- The four target allele columns a join hypothesis can name
(the `EA`/`OA` column-name arguments of `match_variants`). -/
inductive TargetCol
  | ref | alt | refFlip | altFlip
deriving DecidableEq, Repr

/-- Read the target column named by a `TargetCol`. -/
def TargetVariant.col (t : TargetVariant) : TargetCol → String
  | .ref => t.REF
  | .alt => t.ALT
  | .refFlip => t.REF_FLIP
  | .altFlip => t.ALT_FLIP

/-- A joined match row with the `colnames` columns of `match_variants`. -/
structure MatchRecord where
  chr_name : String
  chr_position : Nat
  effect_allele : String
  other_allele : String
  effect_weight : Rat
  effect_type : String
  accession : String
  ID : String
  REF : String
  ALT : String
  REF_FLIP : String
  ALT_FLIP : String
  match_type : String
deriving DecidableEq, Repr

/-- Overwrite the match-record column named by a `TargetCol`.  Mirrors the
aliasing in `match_variants`: the join drops the matched target columns and
the script re-adds them as copies of `effect_allele` / `other_allele`. -/
def MatchRecord.setCol (m : MatchRecord) : TargetCol → String → MatchRecord
  | .ref, v => { m with REF := v }
  | .alt, v => { m with ALT := v }
  | .refFlip, v => { m with REF_FLIP := v }
  | .altFlip, v => { m with ALT_FLIP := v }

/-- `match_variants`: inner join of scorefile and target on
`(chr_name, chr_position) = (#CHROM, POS)` with `effect_allele` matching
target column `EA` and `other_allele` matching target column `OA`; each
joined row is tagged `match_type` and the dropped target columns `EA`, `OA`
are re-added as copies of the score alleles. -/
def match_variants (scorefile : List ScoreEntry) (target : List TargetVariant)
    (EA OA : TargetCol) (mt : String) : List MatchRecord :=
  scorefile.flatMap (fun s =>
    (target.filter (fun t =>
        s.chr_name == t.chrom && s.chr_position == t.pos &&
        s.effect_allele == t.col EA && s.other_allele == t.col OA)).map
      (fun t =>
        let base : MatchRecord :=
          { chr_name := s.chr_name, chr_position := s.chr_position,
            effect_allele := s.effect_allele, other_allele := s.other_allele,
            effect_weight := s.effect_weight, effect_type := s.effect_type,
            accession := s.accession, ID := t.ID, REF := t.REF, ALT := t.ALT,
            REF_FLIP := t.REF_FLIP, ALT_FLIP := t.ALT_FLIP, match_type := mt }
        (base.setCol EA s.effect_allele).setCol OA s.other_allele))

/-- A match row after `label_biallelic_ambiguous` has added the
`ambiguous` column. -/
structure LabelledMatch extends MatchRecord where
  ambiguous : Bool
deriving DecidableEq, Repr

/-- `label_biallelic_ambiguous`: add `ambiguous = True` to every row, then
keep it only where `effect_allele == ALT_FLIP` or `effect_allele == REF_FLIP`
(otherwise set it to `False`); when `remove` is true keep only the rows
where `ambiguous == False`. -/
def label_biallelic_ambiguous (matchRows : List MatchRecord) (remove : Bool) :
    List LabelledMatch :=
  let withFlag : List LabelledMatch :=
    matchRows.map (fun m => { toMatchRecord := m, ambiguous := true })
  let amb : List LabelledMatch :=
    withFlag.map (fun m =>
      if m.effect_allele == m.ALT_FLIP || m.effect_allele == m.REF_FLIP
      then m
      else { m with ambiguous := false })
  if remove then amb.filter (fun m => m.ambiguous == false) else amb

/-- `get_all_matches`: concatenate the four orientation-hypothesis joins and
label (optionally removing) the ambiguous rows. -/
def get_all_matches (target : List TargetVariant) (scorefile : List ScoreEntry)
    (remove : Bool) : List LabelledMatch :=
  let refalt := match_variants scorefile target .ref .alt "refalt"
  let altref := match_variants scorefile target .alt .ref "altref"
  let refalt_flip := match_variants scorefile target .refFlip .altFlip "refalt_flip"
  let altref_flip := match_variants scorefile target .altFlip .refFlip "altref_flip"
  label_biallelic_ambiguous (refalt ++ altref ++ refalt_flip ++ altref_flip) remove

/-! ## Duplicate splitting, pivoting, and writing -/

/-- A `(first, dup)` pair as returned by `unduplicate_variants`. -/
structure Unduplicated where
  first : List LabelledMatch
  dup : List LabelledMatch
deriving DecidableEq, Repr

/-- The polars `is_duplicated` predicate on the `ID` column: true when the
value of `ID` occurs more than once in the frame. -/
def is_duplicated (df : List LabelledMatch) (m : LabelledMatch) : Bool :=
  decide (2 ≤ df.countP (fun x => x.ID == m.ID))

/-- `unduplicate_variants`: split a frame into the rows whose `ID` is not
duplicated (`first`) and the rows whose `ID` is duplicated (`dup`). -/
def unduplicate_variants (df : List LabelledMatch) : Unduplicated :=
  { first := df.filter (fun m => !(is_duplicated df m)),
    dup := df.filter (fun m => is_duplicated df m) }

/-- Order-preserving list of distinct values (polars `unique`). -/
def uniqueList {α : Type} [BEq α] (l : List α) : List α :=
  l.foldl (fun acc x => if acc.contains x then acc else acc ++ [x]) []

/-- One row of a pivoted score table: the `(ID, effect_allele)` index pair
and one weight value per accession column. -/
structure PivotRow where
  ID : String
  effect_allele : String
  weights : List Rat
deriving DecidableEq, Repr

/-- A pivoted score table: accession column names plus rows. -/
structure PivotTable where
  accessions : List String
  rows : List PivotRow
deriving DecidableEq, Repr

/-- One cell of the pivot: the weight of the row matching the index pair and
accession, or the `fill_null` value 0 when absent. -/
def pivotCell (df : List LabelledMatch) (id ea acc : String) : Rat :=
  match df.find? (fun m => m.ID == id && m.effect_allele == ea && m.accession == acc) with
  | some m => m.effect_weight
  | none => 0

/-- The polars `pivot` over index `(ID, effect_allele)`, columns `accession`,
values `effect_weight`, followed by `fill_null(0)`. -/
def pivotFrame (df : List LabelledMatch) : PivotTable :=
  let accs := uniqueList (df.map (fun m => m.accession))
  let idx := uniqueList (df.map (fun m => (m.ID, m.effect_allele)))
  { accessions := accs,
    rows := idx.map (fun p =>
      { ID := p.1, effect_allele := p.2,
        weights := accs.map (fun acc => pivotCell df p.1 p.2 acc) }) }

/-- `format_scorefile`: when `split` is true, one pivoted table per distinct
chromosome; otherwise a single table under the key `"false"` (the Python
dict literally uses the string key for the unsplit case, and that key is
what the `{chr}` slot of the output file name receives). -/
def format_scorefile (df : List LabelledMatch) (split : Bool) :
    List (String × PivotTable) :=
  if split then
    (uniqueList (df.map (fun m => m.chr_name))).map
      (fun x => (x, pivotFrame (df.filter (fun m => m.chr_name == x))))
  else
    [("false", pivotFrame df)]

/-- `split_effect_type`: one group of rows per distinct `effect_type`. -/
def split_effect_type (df : List LabelledMatch) :
    List (String × List LabelledMatch) :=
  (uniqueList (df.map (fun m => m.effect_type))).map
    (fun x => (x, df.filter (fun m => m.effect_type == x)))

/-- The output filename template `{chr}_{et}_{dup}.scorefile`. -/
def fout (chr et dupStatus : String) : String :=
  chr ++ "_" ++ et ++ "_" ++ dupStatus ++ ".scorefile"

/-- `write_scorefile`: the list of `(path, table)` files written for one
effect type.  Each non-empty group of the `(first, dup)` pair is formatted
and written; an empty group is skipped.  NOTE: the source passes
`dup = 'first'` when formatting the path in BOTH branches (the second
branch repeats `path = fout.format(chr = k, et = effect_type,
dup = 'first')`), which the embedding reproduces verbatim. -/
def write_scorefile (effect_type : String) (scorefile : Unduplicated)
    (split : Bool) : List (String × PivotTable) :=
  (if 0 < scorefile.first.length then
    (format_scorefile scorefile.first split).map
      (fun kv => (fout kv.1 effect_type "first", kv.2))
  else []) ++
  (if 0 < scorefile.dup.length then
    (format_scorefile scorefile.dup split).map
      (fun kv => (fout kv.1 effect_type "first", kv.2))
  else [])

/-- The `ea_dict` lookup in `main`; Python `dict.get` returns `None` for a
missing key and `str.format` renders it as the string `None`. -/
def ea_dict (k : String) : String :=
  if k == "is_dominant" then "dominant"
  else if k == "is_recessive" then "recessive"
  else if k == "additive" then "additive"
  else "None"

/-- First line of the `empty_err` assertion message in `main` (the
multi-line guidance text is truncated; only its presence matters). -/
def empty_err : String :=
  "ERROR: No target variants match any variants in all scoring files"

/-- `main` after input parsing: match with `remove = True`, assert the match
set is non-empty (a failed assertion exits non-zero before any file is
written), split by effect type, unduplicate, and collect every file write.
The `min_overlap` argument is parsed as required by `parse_args` but never
read anywhere in `main`, which the embedding reproduces. -/
def main_pipeline (target_rows : List RawTargetRow) (scorefile : List ScoreEntry)
    (split : Bool) (min_overlap : Rat) : Except String (List (String × PivotTable)) :=
  let target := read_target target_rows
  let matchRows := get_all_matches target scorefile true
  if 0 < matchRows.length then
    let ets := split_effect_type matchRows
    let unduplicated := ets.map (fun kv => (kv.1, unduplicate_variants kv.2))
    Except.ok (unduplicated.flatMap (fun kv => write_scorefile (ea_dict kv.1) kv.2 split))
  else
    Except.error empty_err

/-! ## Helper lemmas on the allele complement -/

/-- The set of valid nucleotide symbols named by the spec. -/
def validBase (c : Char) : Prop := c = 'A' ∨ c = 'T' ∨ c = 'C' ∨ c = 'G'

instance (c : Char) : Decidable (validBase c) := by
  unfold validBase
  infer_instance

/-- The base-pair mapping stated by the spec: A↔T, C↔G, order preserved. -/
def baseComplement (c : Char) : Char :=
  if c = 'A' then 'T'
  else if c = 'T' then 'A'
  else if c = 'C' then 'G'
  else if c = 'G' then 'C'
  else c

theorem flipChars_cons (c : Char) (s : List Char) :
    flipChars (c :: s) = flipPoint c :: flipChars s := rfl

theorem flipPoint_valid {c : Char} (h : validBase c) :
    flipPoint c = baseComplement c ∧ flipPoint (flipPoint c) = c := by
  rcases h with h | h | h | h <;> subst h <;> exact ⟨by decide, by decide⟩

theorem flipChars_valid (s : List Char) (h : ∀ c ∈ s, validBase c) :
    flipChars s = s.map baseComplement ∧ flipChars (flipChars s) = s := by
  induction s with
  | nil => exact ⟨rfl, rfl⟩
  | cons c t ih =>
    have hc := h c (List.mem_cons_self c t)
    obtain ⟨ih1, ih2⟩ := ih (fun x hx => h x (List.mem_cons_of_mem c hx))
    constructor
    · rw [flipChars_cons, ih1, List.map_cons, (flipPoint_valid hc).1]
    · rw [flipChars_cons, flipChars_cons, ih2, (flipPoint_valid hc).2]

/-- C2: on allele strings over {A,T,C,G} the complementer is an involution
of the same length mapping A↔T and C↔G position-wise, and on every loaded
target variant, complementing `REF_FLIP` recovers `REF` and complementing
`ALT_FLIP` recovers `ALT`. -/
theorem complement_involution :
    (∀ s : String, (∀ c ∈ s.data, validBase c) →
      flipAlleles (flipAlleles s) = s ∧ (flipAlleles s).length = s.length ∧
      (flipAlleles s).data = s.data.map baseComplement) ∧
    (∀ rows : List RawTargetRow, ∀ tv ∈ read_target rows,
      (∀ c ∈ tv.REF.data, validBase c) → (∀ c ∈ tv.ALT.data, validBase c) →
      flipAlleles tv.REF_FLIP = tv.REF ∧ flipAlleles tv.ALT_FLIP = tv.ALT) := by
  have key : ∀ s : String, (∀ c ∈ s.data, validBase c) →
      flipAlleles (flipAlleles s) = s ∧ (flipAlleles s).length = s.length ∧
      (flipAlleles s).data = s.data.map baseComplement := by
    intro s h
    obtain ⟨h1, h2⟩ := flipChars_valid s.data h
    refine ⟨?_, ?_, h1⟩
    · show String.mk (flipChars (flipChars s.data)) = s
      rw [h2]
    · show (flipChars s.data).length = s.data.length
      rw [h1, List.length_map]
  refine ⟨key, ?_⟩
  intro rows tv htv hREF hALT
  simp only [read_target, List.mem_map] at htv
  obtain ⟨r, _, rfl⟩ := htv
  exact ⟨(key r.REF hREF).1, (key r.ALT hALT).1⟩

/-- C2 witness: the involution and mapping at the concrete string ACGT. -/
theorem complement_involution_w :
    flipAlleles (flipAlleles "ACGT") = "ACGT" ∧
    (flipAlleles "ACGT").length = "ACGT".length ∧
    (flipAlleles "ACGT").data = "ACGT".data.map baseComplement :=
  complement_involution.1 "ACGT" (by decide)

/-! ## Ambiguity labelling -/

/-- Core fact about `label_biallelic_ambiguous`: every labelled row carries
`ambiguous = true` exactly when its `effect_allele` equals its `ALT_FLIP`
or `REF_FLIP` column. -/
theorem mem_label_ambiguous (matchRows : List MatchRecord) (remove : Bool)
    (lm : LabelledMatch) (h : lm ∈ label_biallelic_ambiguous matchRows remove) :
    lm.ambiguous = true ↔
      (lm.effect_allele = lm.ALT_FLIP ∨ lm.effect_allele = lm.REF_FLIP) := by
  have hcore : lm ∈ (matchRows.map (fun m =>
      ({ toMatchRecord := m, ambiguous := true } : LabelledMatch))).map
      (fun m => if m.effect_allele == m.ALT_FLIP || m.effect_allele == m.REF_FLIP
                then m else { m with ambiguous := false }) := by
    cases remove with
    | true => exact List.mem_of_mem_filter h
    | false => exact h
  obtain ⟨m1, hm1, rfl⟩ := List.mem_map.1 hcore
  obtain ⟨m0, _, rfl⟩ := List.mem_map.1 hm1
  by_cases hc : m0.effect_allele == m0.ALT_FLIP || m0.effect_allele == m0.REF_FLIP
  · rw [if_pos hc]
    simp only [Bool.or_eq_true, beq_iff_eq] at hc
    simpa using hc
  · rw [if_neg hc]
    simp only [Bool.or_eq_true, beq_iff_eq, not_or] at hc
    simpa using hc

/-- C1: every record produced by the matcher carries `ambiguous = true`
exactly when its `effect_allele` equals the `ALT_FLIP` or `REF_FLIP`
column of its joined target row, regardless of the hypothesis that
produced it. -/
theorem ambiguity_flag_iff (target : List TargetVariant)
    (scorefile : List ScoreEntry) (remove : Bool) (lm : LabelledMatch)
    (h : lm ∈ get_all_matches target scorefile remove) :
    lm.ambiguous = true ↔
      (lm.effect_allele = lm.ALT_FLIP ∨ lm.effect_allele = lm.REF_FLIP) :=
  mem_label_ambiguous _ remove lm h

/-- A target variant with strand-ambiguous alleles A/T, for the C1 witness. -/
def ambTv : TargetVariant :=
  { chrom := "1", ID := "v9", cm := 0, pos := 300,
    REF := "A", ALT := "T", REF_FLIP := "T", ALT_FLIP := "A" }

/-- A score entry hitting `ambTv` on the refalt hypothesis. -/
def ambSe : ScoreEntry :=
  { chr_name := "1", chr_position := 300, effect_allele := "A",
    other_allele := "T", effect_weight := 1, effect_type := "additive",
    accession := "X" }

/-- The refalt match of `ambSe` against `ambTv`, flagged ambiguous. -/
def ambLm : LabelledMatch :=
  { toMatchRecord :=
      { chr_name := "1", chr_position := 300, effect_allele := "A",
        other_allele := "T", effect_weight := 1, effect_type := "additive",
        accession := "X", ID := "v9", REF := "A", ALT := "T",
        REF_FLIP := "T", ALT_FLIP := "A", match_type := "refalt" },
    ambiguous := true }

/-- The altref_flip match of `ambSe` against `ambTv`, flagged ambiguous. -/
def ambLm2 : LabelledMatch :=
  { ambLm with match_type := "altref_flip" }

/-- C1 witness: the flag equivalence at a concrete matcher output row. -/
theorem ambiguity_flag_iff_w :
    ambLm.ambiguous = true ↔
      (ambLm.effect_allele = ambLm.ALT_FLIP ∨
       ambLm.effect_allele = ambLm.REF_FLIP) :=
  ambiguity_flag_iff [ambTv] [ambSe] false ambLm (by
    have hh : get_all_matches [ambTv] [ambSe] false = [ambLm, ambLm2] := rfl
    rw [hh]
    exact List.mem_cons_self _ _)

/-! ## End-to-end scenario (C3) -/

/-- The target row of end-to-end scenario 1. -/
def endToEndTarget : RawTargetRow :=
  { chrom := "1", ID := "v1", cm := 0, pos := 100, REF := "A", ALT := "G" }

/-- The score row of end-to-end scenario 1. -/
def endToEndScore : ScoreEntry :=
  { chr_name := "1", chr_position := 100, effect_allele := "A",
    other_allele := "G", effect_weight := 1/2, effect_type := "additive",
    accession := "X" }

/-- C3: the full matching pipeline on scenario 1 yields exactly one record,
with match_type refalt, ambiguous false, and the weight 0.5 unchanged. -/
theorem end_to_end_refalt :
    get_all_matches (read_target [endToEndTarget]) [endToEndScore] true =
      [{ toMatchRecord :=
          { chr_name := "1", chr_position := 100, effect_allele := "A",
            other_allele := "G", effect_weight := 1/2,
            effect_type := "additive", accession := "X", ID := "v1",
            REF := "A", ALT := "G", REF_FLIP := "T", ALT_FLIP := "C",
            match_type := "refalt" },
         ambiguous := false }] := rfl

/-! ## Ambiguity removal as a filter (C4) -/

/-- C4: with `remove = true` the resolver returns exactly the rows the
`remove = false` run labels non-ambiguous, unchanged: it is the
`ambiguous == false` filter (hence a sublist) of the labelled output, and
every surviving row is non-ambiguous and present in the labelled output. -/
theorem remove_ambiguous_subset (matchRows : List MatchRecord) :
    label_biallelic_ambiguous matchRows true
      = (label_biallelic_ambiguous matchRows false).filter
          (fun lm => lm.ambiguous == false)
    ∧ List.Sublist (label_biallelic_ambiguous matchRows true)
        (label_biallelic_ambiguous matchRows false)
    ∧ ∀ lm ∈ label_biallelic_ambiguous matchRows true,
        lm.ambiguous = false ∧ lm ∈ label_biallelic_ambiguous matchRows false := by
  refine ⟨rfl, List.filter_sublist _, ?_⟩
  intro lm hlm
  have h := List.mem_filter.1 (hlm : lm ∈ List.filter _ _)
  exact ⟨by simpa using h.2, h.1⟩

/-- An ambiguous raw match row (effect A equals ALT_FLIP A). -/
def c4amb : MatchRecord :=
  { chr_name := "1", chr_position := 300, effect_allele := "A",
    other_allele := "T", effect_weight := 1, effect_type := "additive",
    accession := "X", ID := "v9", REF := "A", ALT := "T",
    REF_FLIP := "T", ALT_FLIP := "A", match_type := "refalt" }

/-- A non-ambiguous raw match row. -/
def c4ok : MatchRecord :=
  { chr_name := "1", chr_position := 100, effect_allele := "A",
    other_allele := "G", effect_weight := 1, effect_type := "additive",
    accession := "X", ID := "v1", REF := "A", ALT := "G",
    REF_FLIP := "T", ALT_FLIP := "C", match_type := "refalt" }

/-- C4 witness: a surviving concrete row is non-ambiguous and occurs in the
`remove = false` output. -/
theorem remove_ambiguous_subset_w :
    ({ toMatchRecord := c4ok, ambiguous := false } : LabelledMatch).ambiguous = false ∧
    ({ toMatchRecord := c4ok, ambiguous := false } : LabelledMatch) ∈
      label_biallelic_ambiguous [c4amb, c4ok] false :=
  (remove_ambiguous_subset [c4amb, c4ok]).2.2
    { toMatchRecord := c4ok, ambiguous := false } (by
      have hh : label_biallelic_ambiguous [c4amb, c4ok] true =
          [{ toMatchRecord := c4ok, ambiguous := false }] := rfl
      rw [hh]
      exact List.mem_cons_self _ _)

/-! ## Duplicate split as a strict partition (C5) -/

/-- C5: `unduplicate_variants` strictly partitions its input without
altering rows: the two groups together are a permutation of the input, no
row is in both, every identifier in `dup` occurs at least twice in the
input, and every identifier in `first` occurs exactly once. -/
theorem unduplicate_partition (df : List LabelledMatch) :
    List.Perm ((unduplicate_variants df).first ++ (unduplicate_variants df).dup) df
    ∧ (∀ m : LabelledMatch,
        ¬(m ∈ (unduplicate_variants df).first ∧ m ∈ (unduplicate_variants df).dup))
    ∧ (∀ m ∈ (unduplicate_variants df).dup,
        2 ≤ df.countP (fun x => x.ID == m.ID))
    ∧ (∀ m ∈ (unduplicate_variants df).first,
        df.countP (fun x => x.ID == m.ID) = 1) := by
  refine ⟨?_, ?_, ?_, ?_⟩
  · exact List.perm_append_comm.trans
      (List.filter_append_perm (fun m => is_duplicated df m) df)
  · rintro m ⟨h1, h2⟩
    have p1 := (List.mem_filter.1 h1).2
    have p2 := (List.mem_filter.1 h2).2
    simp [p2] at p1
  · intro m hm
    have h := (List.mem_filter.1 hm).2
    simpa [is_duplicated] using h
  · intro m hm
    have hmem := (List.mem_filter.1 hm).1
    have hnd := (List.mem_filter.1 hm).2
    have h1 : ¬ 2 ≤ df.countP (fun x => x.ID == m.ID) := by
      simpa [is_duplicated] using hnd
    have h2 : 0 < df.countP (fun x => x.ID == m.ID) :=
      List.countP_pos_iff.2 ⟨m, hmem, by simp⟩
    omega

/-- A row whose identifier vdup occurs twice in the C5 witness frame. -/
def dupRowA : LabelledMatch :=
  { toMatchRecord :=
      { chr_name := "1", chr_position := 100, effect_allele := "A",
        other_allele := "G", effect_weight := 1, effect_type := "additive",
        accession := "X", ID := "vdup", REF := "A", ALT := "G",
        REF_FLIP := "T", ALT_FLIP := "C", match_type := "refalt" },
    ambiguous := false }

/-- A second row with the same identifier vdup but another effect allele. -/
def dupRowB : LabelledMatch :=
  { toMatchRecord :=
      { chr_name := "1", chr_position := 100, effect_allele := "C",
        other_allele := "G", effect_weight := 1, effect_type := "additive",
        accession := "Y", ID := "vdup", REF := "C", ALT := "G",
        REF_FLIP := "G", ALT_FLIP := "C", match_type := "refalt" },
    ambiguous := false }

/-- A row whose identifier vuniq occurs once in the C5 witness frame. -/
def uniqRow : LabelledMatch :=
  { toMatchRecord :=
      { chr_name := "1", chr_position := 200, effect_allele := "A",
        other_allele := "G", effect_weight := 1, effect_type := "additive",
        accession := "X", ID := "vuniq", REF := "A", ALT := "G",
        REF_FLIP := "T", ALT_FLIP := "C", match_type := "refalt" },
    ambiguous := false }

/-- The concrete frame for the C5 witness. -/
def c5frame : List LabelledMatch := [dupRowA, uniqRow, dupRowB]

/-- C5 witness: the unique-group row of the concrete frame has exactly one
occurrence of its identifier in the input. -/
theorem unduplicate_partition_w :
    c5frame.countP (fun x => x.ID == uniqRow.ID) = 1 :=
  (unduplicate_partition c5frame).2.2.2 uniqRow (by
    have hh : (unduplicate_variants c5frame).first = [uniqRow] := rfl
    rw [hh]
    exact List.mem_cons_self _ _)

/-! ## Fatal error on an empty match set (C6) -/

/-- C6: after matching with ambiguity removal, an empty match set makes the
run fail with the fatal assertion message and produce no file writes, and a
non-empty match set is exactly when the run proceeds to writing. -/
theorem empty_match_fatal (target_rows : List RawTargetRow)
    (scorefile : List ScoreEntry) (split : Bool) (mo : Rat) :
    (get_all_matches (read_target target_rows) scorefile true = [] →
      main_pipeline target_rows scorefile split mo = Except.error empty_err)
    ∧ (get_all_matches (read_target target_rows) scorefile true ≠ [] →
      ∃ files, main_pipeline target_rows scorefile split mo = Except.ok files) := by
  by_cases hm : get_all_matches (read_target target_rows) scorefile true = []
  · refine ⟨fun _ => ?_, fun hne => absurd hm hne⟩
    simp [main_pipeline, hm]
  · refine ⟨fun he => absurd he hm, fun _ => ?_⟩
    have hp : 0 < (get_all_matches (read_target target_rows) scorefile true).length :=
      List.length_pos.2 hm
    refine ⟨((split_effect_type (get_all_matches (read_target target_rows) scorefile true)).map
      (fun kv => (kv.1, unduplicate_variants kv.2))).flatMap
      (fun kv => write_scorefile (ea_dict kv.1) kv.2 split), ?_⟩
    simp [main_pipeline, hp]

/-- C6 witness: with no targets and no score rows the pipeline fails with
the fatal message. -/
theorem empty_match_fatal_w :
    main_pipeline [] [] false 0 = Except.error empty_err :=
  (empty_match_fatal [] [] false 0).1 rfl

/-! ## Foreign characters in the complementer (C7) -/

/-- C7 counterexample: the complementer never raises anything on a character
outside {A,T,C,G} — it is a total string transformation with no error path,
and the foreign character N is passed through silently, contradicting the
claim that it fails before producing output. -/
theorem complement_no_error_on_N : flipAlleles "N" = "N" := rfl

/-- A character untouched by the eight-step chain is the identity point. -/
theorem flipPoint_foreign {c : Char}
    (h : c ≠ 'A' ∧ c ≠ 'T' ∧ c ≠ 'C' ∧ c ≠ 'G' ∧
         c ≠ 'V' ∧ c ≠ 'X' ∧ c ≠ 'Y' ∧ c ≠ 'Z') :
    flipPoint c = c := by
  obtain ⟨h1, h2, h3, h4, h5, h6, h7, h8⟩ := h
  simp [flipPoint, replaceAllC, h1, h2, h3, h4, h5, h6, h7, h8]

/-- A char list of foreign characters is untouched by the chain. -/
theorem flipChars_foreign (l : List Char)
    (h : ∀ c ∈ l, c ≠ 'A' ∧ c ≠ 'T' ∧ c ≠ 'C' ∧ c ≠ 'G' ∧
         c ≠ 'V' ∧ c ≠ 'X' ∧ c ≠ 'Y' ∧ c ≠ 'Z') :
    flipChars l = l := by
  induction l with
  | nil => rfl
  | cons c t ih =>
    rw [flipChars_cons, flipPoint_foreign (h c (List.mem_cons_self c t)),
      ih (fun x hx => h x (List.mem_cons_of_mem c hx))]

/-- C7 amended: the complementer raises no error on foreign characters; any
string whose characters all lie outside {A,T,C,G,V,X,Y,Z} is returned
unchanged (the four intermediate symbols V,X,Y,Z are instead remapped by
the substitution scheme, still without any failure). -/
theorem foreign_chars_pass_through (s : String)
    (h : ∀ c ∈ s.data, c ≠ 'A' ∧ c ≠ 'T' ∧ c ≠ 'C' ∧ c ≠ 'G' ∧
         c ≠ 'V' ∧ c ≠ 'X' ∧ c ≠ 'Y' ∧ c ≠ 'Z') :
    flipAlleles s = s := by
  show String.mk (flipChars s.data) = s
  rw [flipChars_foreign s.data h]

/-- C7 amended witness: a two-character foreign string passes through. -/
theorem foreign_chars_pass_through_w : flipAlleles "N-" = "N-" :=
  foreign_chars_pass_through "N-" (by decide)

/-! ## The minimum-overlap parameter is never enforced (C8) -/

/-- The single-variant target of the low-overlap run. -/
def lowOverlapTarget : List RawTargetRow :=
  [{ chrom := "1", ID := "v1", cm := 0, pos := 100, REF := "A", ALT := "G" }]

/-- A scorefile with two distinct variants of which only one matches the
target, so the matched fraction is 0.5. -/
def lowOverlapScore : List ScoreEntry :=
  [{ chr_name := "1", chr_position := 100, effect_allele := "A",
     other_allele := "G", effect_weight := 1/2, effect_type := "additive",
     accession := "X" },
   { chr_name := "2", chr_position := 200, effect_allele := "A",
     other_allele := "G", effect_weight := 3/10, effect_type := "additive",
     accession := "X" }]

/-- C8: the run succeeds and writes output although only half of the score
variants matched while the requested minimum overlap is 0.9, and the
pipeline result never depends on the `min_overlap` argument at all — the
parameter is parsed but never read, so no insufficient-overlap failure
exists in the code. -/
theorem min_overlap_unenforced :
    (main_pipeline lowOverlapTarget lowOverlapScore false (9/10)).isOk = true
    ∧ ∀ (tr : List RawTargetRow) (s : List ScoreEntry) (sp : Bool)
        (mo mo2 : Rat),
        main_pipeline tr s sp mo = main_pipeline tr s sp mo2 :=
  ⟨rfl, fun _ _ _ _ _ => rfl⟩

/-! ## Output file naming for the duplicate group (C9) -/

/-- A unique-group row for the file-collision scenario. -/
def collFirstRow : LabelledMatch :=
  { toMatchRecord :=
      { chr_name := "1", chr_position := 100, effect_allele := "A",
        other_allele := "G", effect_weight := 1, effect_type := "additive",
        accession := "X", ID := "v1", REF := "A", ALT := "G",
        REF_FLIP := "T", ALT_FLIP := "C", match_type := "refalt" },
    ambiguous := false }

/-- A duplicate-group row for the file-collision scenario. -/
def collDupRow : LabelledMatch :=
  { toMatchRecord :=
      { chr_name := "1", chr_position := 100, effect_allele := "C",
        other_allele := "G", effect_weight := 2, effect_type := "additive",
        accession := "Y", ID := "v2", REF := "C", ALT := "G",
        REF_FLIP := "G", ALT_FLIP := "C", match_type := "refalt" },
    ambiguous := false }

/-- C9: with both groups non-empty the writer emits two files whose paths
are the SAME string — the duplicate-group write reuses the first-group
path (`dup = first` in both format calls), so it overwrites the
unique-group file instead of using a name encoding its duplicate status. -/
theorem duplicate_group_filename_collision :
    (write_scorefile "additive"
        { first := [collFirstRow], dup := [collDupRow] } false).map Prod.fst
      = ["false_additive_first.scorefile", "false_additive_first.scorefile"] := rfl

/-! ## Empty duplicate-status groups are skipped (C10) -/

/-- C10: the files written by `write_scorefile` decompose into a part coming
only from the `first` group and a part coming only from the `dup` group,
and an empty group contributes no file at all; the writer is total, so no
error is raised for empty groups. -/
theorem empty_group_skipped (et : String) (f d : List LabelledMatch)
    (split : Bool) :
    write_scorefile et { first := f, dup := d } split
      = write_scorefile et { first := f, dup := [] } split
        ++ write_scorefile et { first := [], dup := d } split
    ∧ write_scorefile et { first := [], dup := [] } split = ([] : List (String × PivotTable)) := by
  refine ⟨?_, rfl⟩
  simp only [write_scorefile]
  by_cases hf : 0 < f.length <;> by_cases hd : 0 < d.length <;>
    simp [hf, hd]
